import Mathlib

/-!
Verification of the walletDoc backend's storage-quota accounting and
document-lifecycle bookkeeping.

The definitions below are a shallow embedding of the request handlers in
src/routes/documents.ts and the profile-picture handler in
src/middleware/auth.ts.  External collaborators (Firestore, the object
store, token verification, multer) are modelled by explicit state:

  - the user record (totalSize, documents array, profilePicturePath,
    masterPin) is a `UserState`;
  - the authoritative `documents` Firestore collection is an association
    list keyed by generated document id;
  - the object store's current profile-picture object is tracked by its
    size (`picSize`), probed by the profile-picture handler.

JavaScript conventions that matter are modelled explicitly: absent object
fields are `Option`, the truthiness test `doc.docId` is false for an
absent or empty string, `docData.fileSize || 0` is `Option.getD 0`,
and `userData.totalSize ? userData.totalSize : 0` is the identity on the
integer-valued `totalSize` field (falsy only at 0, which maps to 0).
Sizes written by the code are byte counts (naturals); `totalSize` is kept
as an integer because the handlers compute it with signed arithmetic.
-/

namespace WalletDoc

/-- Per-user storage quota, `MAX_STORAGE_SIZE = 50 * 1024 * 1024` (auth.ts line 349). -/
def MAX_STORAGE_SIZE : ℤ := 50 * 1024 * 1024

/-- An object-shaped entry of the user's embedded `documents` array.  All
fields are optional because Firestore objects are schema-free and the
legacy-upgrade path writes an object with only `docId` and `isDocShow`. -/
structure DocObj where
  docId : Option String
  docName : Option String
  docType : Option String
  docSize : Option Nat
  uploadedTime : Option String
  isDocShow : Option Bool
deriving DecidableEq

/-- Entry of the user's `documents` array: legacy bare-string id, or the
current object shape (documents.ts handles both on every path). -/
inductive DocEntry where
  | legacy (id : String)
  | obj (o : DocObj)
deriving DecidableEq

/-- The user record fields the quota/lifecycle logic touches.  Timestamps
are omitted (externally generated, never read by this logic). -/
structure UserState where
  totalSize : ℤ
  documents : List DocEntry
  profilePicturePath : Option String
  masterPin : Option String
deriving DecidableEq

/-- A record of the authoritative `documents` collection.  `fileSize` is
optional: the delete handler defends against its absence with
`docData.fileSize || 0`. -/
structure DocRecord where
  userId : String
  fileSize : Option Nat
  storagePath : String
deriving DecidableEq

/-- Combined external state seen by one user's handlers: the user record,
the `documents` collection (keyed by generated id), and the size of the
object currently stored at the profile-picture path (`none` if there is
no such object). -/
structure World where
  user : UserState
  docs : List (String × DocRecord)
  picSize : Option Nat
deriving DecidableEq

/-- Firestore `doc(id).get()` on the `documents` collection: first record
with the given key. -/
def lookupDoc : List (String × DocRecord) → String → Option DocRecord
  | [], _ => none
  | p :: rest, documentId => if p.1 = documentId then some p.2 else lookupDoc rest documentId

/-- Firestore `doc(id).delete()` on the `documents` collection: remove the
record with the given key. -/
def eraseDoc : List (String × DocRecord) → String → List (String × DocRecord)
  | [], _ => []
  | p :: rest, documentId => if p.1 = documentId then rest else p :: eraseDoc rest documentId

/-- Firestore `FieldValue.arrayUnion(e)`: append unless already present. -/
def arrayUnion (l : List DocEntry) (e : DocEntry) : List DocEntry :=
  if e ∈ l then l else l ++ [e]

/-- Match predicate of the toggle-visibility route (documents.ts lines
613-618): an object entry matches when its `docId` field is truthy (present
and non-empty) and equal to the requested id; a bare string matches when it
equals the id; an object with a falsy `docId` falls through to the string
comparison, which is false for an object. -/
def matchesDocId (documentId : String) : DocEntry → Bool
  | DocEntry.obj o =>
      match o.docId with
      | some s => if s = "" then false else decide (s = documentId)
      | none => false
  | DocEntry.legacy s => decide (s = documentId)

/-- Replacement entry built by the toggle-visibility route (documents.ts
lines 629-641): an object keeps all its fields and gets `isDocShow` set; a
legacy string is upgraded to an object carrying only `docId` and
`isDocShow`. -/
def setEntryVisibility (documentId : String) (visible : Bool) : DocEntry → DocEntry
  | DocEntry.obj o => DocEntry.obj { o with isDocShow := some visible }
  | DocEntry.legacy _ => DocEntry.obj ⟨some documentId, none, none, none, none, some visible⟩

/-- Core of the toggle-visibility route: `findIndex` over the array with
`matchesDocId`, then replace the entry at the found index (`none` models
the 404 "Document not found in user documents" response, on which the
handler performs no write). -/
def toggleVisibility (documentId : String) (visible : Bool) : List DocEntry → Option (List DocEntry)
  | [] => none
  | e :: rest =>
      if matchesDocId documentId e then
        some (setEntryVisibility documentId visible e :: rest)
      else
        (toggleVisibility documentId visible rest).map (fun l => e :: l)

/-- The toggle-visibility handler at user-record level: on a match it
writes back only the `documents` array (plus an external timestamp). -/
def toggleVisibilityUser (documentId : String) (visible : Bool) (u : UserState) : Option UserState :=
  (toggleVisibility documentId visible u.documents).map (fun ds => { u with documents := ds })

/-- Keep predicate of the delete route's array filter (documents.ts lines
368-375): keep a bare string unless it equals the id; keep an object unless
its `docId` field equals the id (an absent `docId` compares unequal, as
`undefined !== id` in JS). -/
def keepOnRemove (documentId : String) : DocEntry → Bool
  | DocEntry.legacy s => decide (s ≠ documentId)
  | DocEntry.obj o => decide (o.docId ≠ some documentId)

/-- The delete route's `updatedDocuments` filter. -/
def removeDocEntry (documentId : String) (docs : List DocEntry) : List DocEntry :=
  docs.filter (keepOnRemove documentId)

/-- The identifier of an entry equals the given id (the concept the spec's
`remove(docId)` contract quantifies over): the string itself for a legacy
entry, the `docId` field for an object. -/
def entryHasId (documentId : String) : DocEntry → Bool
  | DocEntry.legacy s => decide (s = documentId)
  | DocEntry.obj o => decide (o.docId = some documentId)

/-- Visibility predicate of the PIN-gated read path (documents.ts lines
511-517): `typeof doc === 'object' && doc.isDocShow === true`.  A legacy
string entry is never visible. -/
def isVisibleEntry : DocEntry → Bool
  | DocEntry.legacy _ => false
  | DocEntry.obj o => decide (o.isDocShow = some true)

/-- The `visibleDocuments` filter of the PIN-gated read path. -/
def visibleDocuments (docs : List DocEntry) : List DocEntry :=
  docs.filter isVisibleEntry

/-- Arguments of one document upload, after the transport boundary
(multer) has produced the file and Firestore has generated the fresh
document id; `storagePath` is the timestamped object path the handler
builds. -/
structure UploadArgs where
  docId : String
  docName : String
  docType : String
  size : Nat
  uploadedTime : String
  storagePath : String
deriving DecidableEq

/-- Outcome space of the upload route for the quota question: the handler
either creates the document (HTTP 201) or would reject for quota (the
HTTP 413 outcome the spec describes).  The source handler has no quota
branch, which the theorems below make precise. -/
inductive UploadOutcome where
  | created (documentId : String) (fileSize : Nat)
  | quotaRejected
deriving DecidableEq

/-- The upload route (documents.ts lines 36-159), happy path of the
external calls: write the object, create the `documents` record, append
the descriptor to the user's array via `arrayUnion`, and set
`totalSize := currentTotalSize + file.size`.  There is no quota check
anywhere on this path. -/
def uploadDocument (uid : String) (a : UploadArgs) (w : World) : UploadOutcome × World :=
  let record : DocRecord := ⟨uid, some a.size, a.storagePath⟩
  let docDetails : DocEntry :=
    DocEntry.obj ⟨some a.docId, some a.docName, some a.docType, some a.size, some a.uploadedTime, some true⟩
  let newTotalSize : ℤ := w.user.totalSize + (a.size : ℤ)
  (UploadOutcome.created a.docId a.size,
   { w with
       docs := (a.docId, record) :: w.docs,
       user := { w.user with
                   documents := arrayUnion w.user.documents docDetails,
                   totalSize := newTotalSize } })

/-- Outcome of the delete route. -/
inductive DeleteOutcome where
  | notFound
  | forbidden
  | deleted
deriving DecidableEq

/-- The delete route (documents.ts lines 311-398): load the record (404 if
absent), check ownership (403 on mismatch), delete the stored object
best-effort (failure swallowed, not modelled as state), delete the record,
filter the user's array, and set
`totalSize := Math.max(0, currentTotalSize - (docData.fileSize || 0))`. -/
def deleteDocument (uid : String) (documentId : String) (w : World) : DeleteOutcome × World :=
  match lookupDoc w.docs documentId with
  | none => (DeleteOutcome.notFound, w)
  | some r =>
      if r.userId ≠ uid then (DeleteOutcome.forbidden, w)
      else
        (DeleteOutcome.deleted,
         { w with
             docs := eraseDoc w.docs documentId,
             user := { w.user with
                         documents := removeDocEntry documentId w.user.documents,
                         totalSize := max 0 (w.user.totalSize - ((r.fileSize.getD 0 : Nat) : ℤ)) } })

/-- JS `((bytes)/(1024*1024)).toFixed(2)` then `parseFloat`, scaled by 100
to stay in integers, for a nonnegative byte count: round-half-up of
`bytes * 100 / 1048576`.  Used in the 413 payload (auth.ts lines 924 and
938). -/
def availableMBx100 (b : ℤ) : ℤ :=
  (b * 200 + 1048576) / 2097152

/-- Outcome of the profile-picture route: success, or the structured 413
payload (`currentSize`, `maxSize`, `fileSize`, `availableSpace`, and
`availableMB` scaled by 100) of auth.ts lines 926-941. -/
inductive PPResult where
  | ok
  | quotaExceeded (currentSize maxSize fileSize availableSpace availMBx100 : ℤ)
deriving DecidableEq

/-- Storage side effects of the profile-picture route, in program order.
`deleteObject` records whether the external deletion succeeded; the
handler swallows a failure (try/catch around `oldFile.delete()`). -/
inductive StorageEffect where
  | putObject (path : String) (size : Nat)
  | updateUserRecord (path : String) (total : ℤ)
  | deleteObject (path : String) (succeeded : Bool)
deriving DecidableEq

/-- The probe of the old profile picture's size (auth.ts lines 896-914):
0 when the user record has no `profilePicturePath`; otherwise the size of
the object at that path as reported by the store (`exists` then
`getMetadata`), 0 when the object does not exist. -/
def probeOldPicSize (w : World) : Nat :=
  match w.user.profilePicturePath with
  | none => 0
  | some _ =>
      match w.picSize with
      | some n => n
      | none => 0

/-- The profile-picture route (auth.ts lines 869-1018): probe the old
size, compute `newTotalSize = currentTotalSize - oldProfilePictureSize +
file.size`, reject with 413 if it exceeds the quota, otherwise upload the
new object, update the user record (new path, new totalSize), and finally
attempt to delete the old object when one existed with positive size.
`deleteOldSucceeds` is the outcome of that external deletion; the handler
catches its failure, so the result and the stored state do not depend on
it — only the effect trace records the attempt. -/
def updateProfilePicture (newPath : String) (size : Nat) (deleteOldSucceeds : Bool) (w : World) :
    PPResult × World × List StorageEffect :=
  let currentTotalSize := w.user.totalSize
  let oldSize := probeOldPicSize w
  let newTotalSize : ℤ := currentTotalSize - (oldSize : ℤ) + (size : ℤ)
  if newTotalSize > MAX_STORAGE_SIZE then
    (PPResult.quotaExceeded currentTotalSize MAX_STORAGE_SIZE (size : ℤ)
        (MAX_STORAGE_SIZE - currentTotalSize)
        (availableMBx100 (MAX_STORAGE_SIZE - currentTotalSize)),
     w, [])
  else
    (PPResult.ok,
     { w with
         picSize := some size,
         user := { w.user with
                     profilePicturePath := some newPath,
                     totalSize := newTotalSize } },
     [StorageEffect.putObject newPath size,
      StorageEffect.updateUserRecord newPath newTotalSize]
       ++ (match w.user.profilePicturePath with
           | some oldPath =>
               if 0 < oldSize then [StorageEffect.deleteObject oldPath deleteOldSucceeds] else []
           | none => []))

/-- One serialized operation on a single user. -/
inductive Op where
  | upload (a : UploadArgs)
  | delete (documentId : String)
  | replacePic (newPath : String) (size : Nat)
deriving DecidableEq

/-- State transition of one operation (the handlers above, state part). -/
def applyOp (uid : String) (w : World) : Op → World
  | Op.upload a => (uploadDocument uid a w).2
  | Op.delete documentId => (deleteDocument uid documentId w).2
  | Op.replacePic newPath size => (updateProfilePicture newPath size true w).2.1

/-- Serialized replay of a sequence of operations. -/
def replay (uid : String) (ops : List Op) (w : World) : World :=
  ops.foldl (applyOp uid) w

/-- A fresh user record: `totalSize = 0`, empty documents array, no
profile picture, no master pin (auth.ts register, lines 436-437). -/
def freshUser : UserState := ⟨0, [], none, none⟩

/-- Fresh world for a new user: empty `documents` collection, no stored
profile-picture object. -/
def initWorld : World := ⟨freshUser, [], none⟩

/-- Sum of the recorded sizes of the records in the `documents`
collection (absent `fileSize` counts as 0, matching the delete path). -/
def docsBytes (docs : List (String × DocRecord)) : ℤ :=
  (docs.map (fun p => ((p.2.fileSize.getD 0 : Nat) : ℤ))).sum

/-- Size of the current profile-picture object, 0 when none was set. -/
def picBytes : Option Nat → ℤ
  | none => 0
  | some n => (n : ℤ)

/-- Accounting invariant maintained by replay: `totalSize` equals the sum
of recorded sizes of live documents plus the current profile picture, and
a stored picture object implies the user record points at a picture. -/
def WInv (w : World) : Prop :=
  w.user.totalSize = docsBytes w.docs + picBytes w.picSize ∧
    (w.picSize.isSome → w.user.profilePicturePath.isSome)

/-- Outcome space of the PIN-gated read path (documents.ts lines
466-565): 400 on missing inputs, 404 on missing user, 401 when the master
pin is not set, 401 on a wrong pin, 200 with the visible documents. -/
inductive PinOutcome where
  | badRequest
  | userNotFound
  | pinNotSet
  | invalidPin
  | ok (docs : List DocEntry)
deriving DecidableEq

/-- Firestore `users` collection lookup. -/
def lookupUser : List (String × UserState) → String → Option UserState
  | [], _ => none
  | p :: rest, userId => if p.1 = userId then some p.2 else lookupUser rest userId

/-- JS `!userData?.masterPin`: true when the field is absent or the empty
string (register writes the empty string when no pin is supplied). -/
def masterPinMissing (u : UserState) : Bool :=
  match u.masterPin with
  | none => true
  | some s => decide (s = "")

/-- The get-documents-by-pin route (documents.ts lines 466-565): validate
inputs, load the user, refuse when the master pin is missing, refuse when
the supplied pin differs (strict string equality), otherwise return the
visible documents (the URL refresh is an external pass-through). -/
def getDocumentsByPin (userId : String) (pin : String)
    (users : List (String × UserState)) : PinOutcome :=
  if userId = "" ∨ pin = "" then PinOutcome.badRequest
  else
    match lookupUser users userId with
    | none => PinOutcome.userNotFound
    | some u =>
        if masterPinMissing u then PinOutcome.pinNotSet
        else
          match u.masterPin with
          | none => PinOutcome.pinNotSet
          | some mp =>
              if mp ≠ pin then PinOutcome.invalidPin
              else PinOutcome.ok (visibleDocuments u.documents)

/-- Concrete world for the quota scenario: a user at `totalSize`
49,000,000 with nothing else recorded. -/
def overQuotaWorld : World := ⟨⟨49000000, [], none, none⟩, [], none⟩

/-- Concrete 4 MiB upload request. -/
def fourMiBUpload : UploadArgs :=
  ⟨"d1", "doc.pdf", "application/pdf", 4194304, "Jan 1, 2026", "u1/1_doc.pdf"⟩

/-- Concrete world for the profile-picture scenario: totalSize 10 MiB,
a current picture at path old/p whose stored object is 1 MiB. -/
def picWorld : World := ⟨⟨10485760, [], some "old/p", none⟩, [], some 1048576⟩

/-- Concrete world with inconsistent bookkeeping: totalSize 40 although
the one live document records 100 bytes. -/
def inconsistentWorld : World :=
  ⟨⟨40, [], none, none⟩, [("dX", ⟨"u1", some 100, "u1/x"⟩)], none⟩

/-- Concrete mixed-shape documents array. -/
def sampleDocs : List DocEntry :=
  [DocEntry.legacy "a", DocEntry.obj ⟨some "a", none, none, none, none, some true⟩,
   DocEntry.legacy "b"]

/-- Concrete user without a master pin. -/
def pinUserNoPin : UserState := ⟨0, [], none, none⟩

/-- Concrete user with master pin 1234 and one visible document. -/
def pinUserSet : UserState :=
  ⟨0, [DocEntry.obj ⟨some "d", none, none, none, none, some true⟩], none, some "1234"⟩

/-- Concrete user for the frame property of toggle-visibility. -/
def frameUser : UserState :=
  ⟨5, [DocEntry.legacy "a", DocEntry.obj ⟨some "b", none, none, none, none, some false⟩],
   some "pp", some "1234"⟩

theorem docsBytes_cons (p : String × DocRecord) (rest : List (String × DocRecord)) :
    docsBytes (p :: rest) = ((p.2.fileSize.getD 0 : Nat) : ℤ) + docsBytes rest := by
  simp [docsBytes]

theorem docsBytes_nonneg (docs : List (String × DocRecord)) : 0 ≤ docsBytes docs := by
  induction docs with
  | nil => simp [docsBytes]
  | cons p rest ih =>
      rw [docsBytes_cons]
      have h := Int.natCast_nonneg (p.2.fileSize.getD 0)
      linarith

theorem picBytes_nonneg (o : Option Nat) : 0 ≤ picBytes o := by
  cases o <;> simp [picBytes]

theorem docsBytes_eraseDoc (docs : List (String × DocRecord)) (documentId : String)
    (r : DocRecord) (h : lookupDoc docs documentId = some r) :
    docsBytes (eraseDoc docs documentId) = docsBytes docs - ((r.fileSize.getD 0 : Nat) : ℤ) := by
  induction docs with
  | nil => simp [lookupDoc] at h
  | cons p rest ih =>
      by_cases hp : p.1 = documentId
      · rw [lookupDoc] at h
        simp only [hp, if_pos rfl, if_true, Option.some.injEq] at h
        simp [eraseDoc, hp, docsBytes_cons, h]
      · rw [lookupDoc] at h
        simp only [hp, if_false, ite_false] at h
        simp [eraseDoc, hp, docsBytes_cons, ih h]
        ring

theorem probe_eq_picBytes (w : World)
    (hsync : w.picSize.isSome → w.user.profilePicturePath.isSome) :
    ((probeOldPicSize w : Nat) : ℤ) = picBytes w.picSize := by
  unfold probeOldPicSize
  cases hp : w.picSize with
  | none => cases hpa : w.user.profilePicturePath <;> simp [hpa, hp, picBytes]
  | some n =>
      have hpath := hsync (by simp [hp])
      cases hpa : w.user.profilePicturePath with
      | none => rw [hpa] at hpath; simp at hpath
      | some q => simp [hpa, hp, picBytes]

theorem winv_upload (uid : String) (a : UploadArgs) (w : World) (h : WInv w) :
    WInv (uploadDocument uid a w).2 := by
  obtain ⟨hacc, hsync⟩ := h
  unfold WInv
  refine ⟨?_, ?_⟩
  · simp [uploadDocument, docsBytes_cons, hacc, picBytes]
    ring
  · simpa [uploadDocument] using hsync

theorem winv_delete (uid : String) (documentId : String) (w : World) (h : WInv w) :
    WInv (deleteDocument uid documentId w).2 := by
  obtain ⟨hacc, hsync⟩ := h
  unfold deleteDocument
  cases hl : lookupDoc w.docs documentId with
  | none => exact ⟨hacc, hsync⟩
  | some r =>
      dsimp only
      by_cases hu : r.userId = uid
      · rw [if_neg (by simp [hu])]
        have hsum := docsBytes_eraseDoc w.docs documentId r hl
        have h0 : 0 ≤ docsBytes (eraseDoc w.docs documentId) := docsBytes_nonneg _
        have h1 : 0 ≤ picBytes w.picSize := picBytes_nonneg _
        have heq : w.user.totalSize - ((r.fileSize.getD 0 : Nat) : ℤ)
            = docsBytes (eraseDoc w.docs documentId) + picBytes w.picSize := by
          linarith [hsum, hacc]
        unfold WInv
        refine ⟨?_, hsync⟩
        show max 0 (w.user.totalSize - ((r.fileSize.getD 0 : Nat) : ℤ))
            = docsBytes (eraseDoc w.docs documentId) + picBytes w.picSize
        rw [heq]
        exact max_eq_right (by linarith)
      · rw [if_pos (by simp [hu])]
        exact ⟨hacc, hsync⟩

theorem winv_replacePic (newPath : String) (size : Nat) (flag : Bool) (w : World) (h : WInv w) :
    WInv (updateProfilePicture newPath size flag w).2.1 := by
  obtain ⟨hacc, hsync⟩ := h
  have hprobe := probe_eq_picBytes w hsync
  unfold updateProfilePicture
  by_cases hq : w.user.totalSize - ((probeOldPicSize w : Nat) : ℤ) + (size : ℤ) > MAX_STORAGE_SIZE
  · rw [if_pos hq]
    exact ⟨hacc, hsync⟩
  · rw [if_neg hq]
    unfold WInv
    refine ⟨?_, by simp⟩
    show w.user.totalSize - ((probeOldPicSize w : Nat) : ℤ) + (size : ℤ)
        = docsBytes w.docs + picBytes (some size)
    rw [hprobe, hacc]
    simp [picBytes]

theorem winv_applyOp (uid : String) (w : World) (op : Op) (h : WInv w) :
    WInv (applyOp uid w op) := by
  cases op with
  | upload a => exact winv_upload uid a w h
  | delete documentId => exact winv_delete uid documentId w h
  | replacePic newPath size => exact winv_replacePic newPath size true w h

theorem winv_replay (uid : String) (ops : List Op) (w : World) (h : WInv w) :
    WInv (replay uid ops w) := by
  induction ops generalizing w with
  | nil => simpa [replay] using h
  | cons op rest ih =>
      simpa [replay] using ih (applyOp uid w op) (winv_applyOp uid w op h)

theorem winv_initWorld : WInv initWorld := by
  unfold WInv initWorld freshUser
  refine ⟨by simp [docsBytes, picBytes], by simp⟩

/-- Claim C1: replaying any serialized sequence of upload, delete and
profile-picture-replace operations on one user from a fresh user record
(totalSize 0, empty documents list) leaves totalSize equal to the sum of
the recorded fileSize of all documents uploaded and not subsequently
deleted (exactly the records still in the documents collection after
replay, which starts empty) plus the size of the current profile
picture when one was set (picBytes is 0 when none is). -/
theorem totalSize_replay_accounts (uid : String) (ops : List Op) :
    (replay uid ops initWorld).user.totalSize =
      docsBytes (replay uid ops initWorld).docs
        + picBytes (replay uid ops initWorld).picSize :=
  (winv_replay uid ops initWorld winv_initWorld).1

theorem toggle_none (documentId : String) (visible : Bool) (docs : List DocEntry)
    (h : ∀ e ∈ docs, matchesDocId documentId e = false) :
    toggleVisibility documentId visible docs = none := by
  induction docs with
  | nil => rfl
  | cons e rest ih =>
      have he := h e (by simp)
      simp [toggleVisibility, he, ih (fun x hx => h x (by simp [hx]))]

theorem toggle_found (documentId : String) (visible : Bool) :
    ∀ (l1 : List DocEntry) (e : DocEntry) (l2 : List DocEntry),
      (∀ x ∈ l1, matchesDocId documentId x = false) →
      matchesDocId documentId e = true →
      toggleVisibility documentId visible (l1 ++ e :: l2)
        = some (l1 ++ setEntryVisibility documentId visible e :: l2) := by
  intro l1
  induction l1 with
  | nil =>
      intro e l2 _ he
      simp [toggleVisibility, he]
  | cons x xs ih =>
      intro e l2 hpre he
      have hx := hpre x (by simp)
      simp [toggleVisibility, hx, ih e l2 (fun y hy => hpre y (by simp [hy])) he]

theorem toggle_some_elim (documentId : String) (visible : Bool) :
    ∀ (docs res : List DocEntry), toggleVisibility documentId visible docs = some res →
      ∃ l1 e l2, docs = l1 ++ e :: l2
        ∧ (∀ x ∈ l1, matchesDocId documentId x = false)
        ∧ matchesDocId documentId e = true
        ∧ res = l1 ++ setEntryVisibility documentId visible e :: l2 := by
  intro docs
  induction docs with
  | nil => intro res h; simp [toggleVisibility] at h
  | cons e rest ih =>
      intro res h
      cases he : matchesDocId documentId e with
      | true =>
          rw [toggleVisibility, if_pos he, Option.some.injEq] at h
          exact ⟨[], e, rest, by simp, by simp, he, h.symm⟩
      | false =>
          rw [toggleVisibility, if_neg (by simp [he])] at h
          rw [Option.map_eq_some'] at h
          obtain ⟨r, hr, hres⟩ := h
          obtain ⟨l1, e1, l2, hdocs, hpre, hmatch, hres1⟩ := ih r hr
          refine ⟨e :: l1, e1, l2, by simp [hdocs], ?_, hmatch, by simp [← hres, hres1]⟩
          intro x hx
          rcases List.mem_cons.mp hx with hx1 | hx1
          · rw [hx1]; exact he
          · exact hpre x hx1

/-- Claim C5: for every toggle-visibility request on a documents list, if
no entry matches the id the operation fails with NotFound (the handler
responds 404 and performs no write, so the list is unchanged); if the
first matching entry is a legacy bare-string id it is replaced in place by
an object carrying only docId and isDocShow, with the id preserved (the
matched string necessarily equals the requested id); if the first
matching entry is already an object, only its isDocShow field is set. -/
theorem toggle_visibility_cases (documentId : String) (visible : Bool) (docs : List DocEntry) :
    ((∀ e ∈ docs, matchesDocId documentId e = false) →
      toggleVisibility documentId visible docs = none)
    ∧ (∀ l1 s l2, docs = l1 ++ DocEntry.legacy s :: l2 →
        (∀ x ∈ l1, matchesDocId documentId x = false) →
        matchesDocId documentId (DocEntry.legacy s) = true →
        s = documentId
          ∧ toggleVisibility documentId visible docs
              = some (l1 ++ DocEntry.obj ⟨some documentId, none, none, none, none, some visible⟩ :: l2))
    ∧ (∀ l1 o l2, docs = l1 ++ DocEntry.obj o :: l2 →
        (∀ x ∈ l1, matchesDocId documentId x = false) →
        matchesDocId documentId (DocEntry.obj o) = true →
        toggleVisibility documentId visible docs
          = some (l1 ++ DocEntry.obj { o with isDocShow := some visible } :: l2)) := by
  refine ⟨toggle_none documentId visible docs, ?_, ?_⟩
  · intro l1 s l2 hdocs hpre hmatch
    have hs : s = documentId := by
      have := hmatch
      simp [matchesDocId] at this
      exact this
    refine ⟨hs, ?_⟩
    rw [hdocs]
    exact toggle_found documentId visible l1 (DocEntry.legacy s) l2 hpre hmatch
  · intro l1 o l2 hdocs hpre hmatch
    rw [hdocs]
    exact toggle_found documentId visible l1 (DocEntry.obj o) l2 hpre hmatch

theorem toggle_visibility_cases_witness :
    toggleVisibility "z" true [DocEntry.legacy "a"] = none
    ∧ ("d" = "d"
        ∧ toggleVisibility "d" true [DocEntry.legacy "d"]
            = some [DocEntry.obj ⟨some "d", none, none, none, none, some true⟩])
    ∧ toggleVisibility "q" false
        [DocEntry.obj ⟨some "q", some "n", none, some 5, none, some true⟩]
        = some [DocEntry.obj ⟨some "q", some "n", none, some 5, none, some false⟩] := by
  refine ⟨(toggle_visibility_cases "z" true [DocEntry.legacy "a"]).1 (by decide), ?_, ?_⟩
  · exact (toggle_visibility_cases "d" true [DocEntry.legacy "d"]).2.1
      [] "d" [] rfl (by simp) (by decide)
  · have h := (toggle_visibility_cases "q" false
      [DocEntry.obj ⟨some "q", some "n", none, some 5, none, some true⟩]).2.2
      [] ⟨some "q", some "n", none, some 5, none, some true⟩ [] rfl (by simp) (by decide)
    simpa using h

/-- Claim C10: a successful toggle-visibility request rewrites the
documents array at the matched entry only: the arrays agree on a common
context around that one position (so every other entry and the order are
unchanged), and totalSize, profilePicturePath and masterPin of the user
record are untouched. -/
theorem toggle_visibility_frame (documentId : String) (visible : Bool) (u u' : UserState)
    (h : toggleVisibilityUser documentId visible u = some u') :
    u'.totalSize = u.totalSize
    ∧ u'.profilePicturePath = u.profilePicturePath
    ∧ u'.masterPin = u.masterPin
    ∧ ∃ l1 e l2, u.documents = l1 ++ e :: l2
        ∧ matchesDocId documentId e = true
        ∧ u'.documents = l1 ++ setEntryVisibility documentId visible e :: l2 := by
  unfold toggleVisibilityUser at h
  cases ht : toggleVisibility documentId visible u.documents with
  | none => rw [ht] at h; simp at h
  | some ds =>
      rw [ht] at h
      simp only [Option.map_some', Option.some.injEq] at h
      obtain ⟨l1, e, l2, hdocs, _, hm, hres⟩ := toggle_some_elim documentId visible u.documents ds ht
      refine ⟨by rw [← h], by rw [← h], by rw [← h], l1, e, l2, hdocs, hm, ?_⟩
      rw [← h]
      exact hres

theorem toggle_visibility_frame_witness :
    (⟨5, [DocEntry.legacy "a", DocEntry.obj ⟨some "b", none, none, none, none, some true⟩],
        some "pp", some "1234"⟩ : UserState).totalSize = frameUser.totalSize
    ∧ (⟨5, [DocEntry.legacy "a", DocEntry.obj ⟨some "b", none, none, none, none, some true⟩],
        some "pp", some "1234"⟩ : UserState).profilePicturePath = frameUser.profilePicturePath
    ∧ (⟨5, [DocEntry.legacy "a", DocEntry.obj ⟨some "b", none, none, none, none, some true⟩],
        some "pp", some "1234"⟩ : UserState).masterPin = frameUser.masterPin := by
  have h := toggle_visibility_frame "b" true frameUser
    ⟨5, [DocEntry.legacy "a", DocEntry.obj ⟨some "b", none, none, none, none, some true⟩],
     some "pp", some "1234"⟩ (by decide)
  exact ⟨h.1, h.2.1, h.2.2.1⟩

theorem keepOnRemove_eq_not_entryHasId (documentId : String) (e : DocEntry) :
    keepOnRemove documentId e = !entryHasId documentId e := by
  cases e <;> simp [keepOnRemove, entryHasId]

theorem filter_self_idem {α : Type} (p : α → Bool) (l : List α) :
    (l.filter p).filter p = l.filter p := by
  induction l with
  | nil => rfl
  | cons a t ih =>
      by_cases h : p a <;> simp [List.filter_cons, h, ih]

/-- Claim C6: the delete route's array filter removes every entry, legacy
bare-string or object shape, whose identifier equals the given id; it
keeps every entry whose identifier differs; it is a no-op (not an error)
when no entry matches; and it is idempotent, so removing the same id twice
yields the same sequence as removing it once. -/
theorem remove_filter_spec (documentId : String) (docs : List DocEntry) :
    (∀ e ∈ removeDocEntry documentId docs, entryHasId documentId e = false)
    ∧ (∀ e ∈ docs, entryHasId documentId e = false → e ∈ removeDocEntry documentId docs)
    ∧ ((∀ e ∈ docs, entryHasId documentId e = false) → removeDocEntry documentId docs = docs)
    ∧ removeDocEntry documentId (removeDocEntry documentId docs)
        = removeDocEntry documentId docs := by
  refine ⟨?_, ?_, ?_, filter_self_idem _ docs⟩
  · intro e he
    have hk := (List.mem_filter.mp he).2
    rw [keepOnRemove_eq_not_entryHasId] at hk
    simpa using hk
  · intro e he hid
    refine List.mem_filter.mpr ⟨he, ?_⟩
    rw [keepOnRemove_eq_not_entryHasId, hid]
    rfl
  · intro h
    apply List.filter_eq_self.mpr
    intro e he
    rw [keepOnRemove_eq_not_entryHasId, h e he]
    rfl

theorem remove_filter_spec_witness :
    entryHasId "a" (DocEntry.legacy "b") = false
    ∧ DocEntry.legacy "b" ∈ removeDocEntry "a" sampleDocs
    ∧ removeDocEntry "c" sampleDocs = sampleDocs := by
  refine ⟨(remove_filter_spec "a" sampleDocs).1 (DocEntry.legacy "b") (by decide),
          (remove_filter_spec "a" sampleDocs).2.1 (DocEntry.legacy "b") (by decide) (by decide),
          (remove_filter_spec "c" sampleDocs).2.2.1 (by decide)⟩

/-- Claim C7: for every possible documents list, the PIN-gated read
path's visibility filter returns exactly the entries that are
object-shaped with isDocShow strictly equal to true — an entry is in the
result precisely when it is in the list and is an object whose isDocShow
field is true, so legacy bare-string entries are never included. -/
theorem visible_filter_mem_iff (docs : List DocEntry) (e : DocEntry) :
    e ∈ visibleDocuments docs
      ↔ e ∈ docs ∧ ∃ o, e = DocEntry.obj o ∧ o.isDocShow = some true := by
  unfold visibleDocuments
  rw [List.mem_filter]
  refine and_congr_right fun _ => ?_
  cases e with
  | legacy s => simp [isVisibleEntry]
  | obj o => simp [isVisibleEntry]

theorem visible_filter_mem_iff_witness :
    DocEntry.obj ⟨some "a", none, none, none, none, some true⟩ ∈ visibleDocuments sampleDocs := by
  exact (visible_filter_mem_iff sampleDocs
      (DocEntry.obj ⟨some "a", none, none, none, none, some true⟩)).mpr
    ⟨by decide, ⟨some "a", none, none, none, none, some true⟩, rfl, rfl⟩

/-- Claim C8: on the PIN-gated read path, for a well-formed request
(non-empty userId and pin) naming an existing user whose masterPin is
absent or empty, the route refuses with the 401 authentication outcome
and returns no documents; moreover, independent of well-formedness,
whenever a user is found and the master pin is missing the outcome is
never the success outcome, and documents are returned only when the
supplied pin is strictly equal to the stored masterPin (and then they are
exactly the visible ones). -/
theorem pin_gate_spec (userId pin : String) (users : List (String × UserState))
    (u : UserState) (hu : lookupUser users userId = some u) :
    (masterPinMissing u = true →
      getDocumentsByPin userId pin users = PinOutcome.badRequest
      ∨ getDocumentsByPin userId pin users = PinOutcome.pinNotSet)
    ∧ (userId ≠ "" → pin ≠ "" → masterPinMissing u = true →
        getDocumentsByPin userId pin users = PinOutcome.pinNotSet)
    ∧ (∀ ds, getDocumentsByPin userId pin users = PinOutcome.ok ds →
        u.masterPin = some pin ∧ ds = visibleDocuments u.documents) := by
  unfold getDocumentsByPin
  by_cases hv : userId = "" ∨ pin = ""
  · rw [if_pos hv]
    refine ⟨fun _ => Or.inl rfl, ?_, ?_⟩
    · intro h1 h2 _
      rcases hv with hv | hv
      · exact absurd hv h1
      · exact absurd hv h2
    · intro ds h
      exact absurd h (by simp)
  · rw [if_neg hv, hu]
    dsimp only
    by_cases hm : masterPinMissing u = true
    · rw [if_pos hm]
      refine ⟨fun _ => Or.inr rfl, fun _ _ _ => rfl, fun ds h => absurd h (by simp)⟩
    · rw [if_neg hm]
      refine ⟨fun h => absurd h hm, fun _ _ h => absurd h hm, ?_⟩
      intro ds h
      cases hmp : u.masterPin with
      | none =>
          rw [hmp] at h
          exact absurd h (by simp)
      | some mp =>
          rw [hmp] at h
          dsimp only at h
          by_cases hne : mp = pin
          · rw [if_neg (by simp [hne])] at h
            simp only [PinOutcome.ok.injEq] at h
            exact ⟨by rw [hne], h.symm⟩
          · rw [if_pos (by simp [hne])] at h
            exact absurd h (by simp)

theorem pin_gate_spec_witness :
    (getDocumentsByPin "u" "p" [("u", pinUserNoPin)] = PinOutcome.badRequest
      ∨ getDocumentsByPin "u" "p" [("u", pinUserNoPin)] = PinOutcome.pinNotSet)
    ∧ getDocumentsByPin "u" "p" [("u", pinUserNoPin)] = PinOutcome.pinNotSet
    ∧ (pinUserSet.masterPin = some "1234"
        ∧ visibleDocuments pinUserSet.documents = visibleDocuments pinUserSet.documents) := by
  refine ⟨(pin_gate_spec "u" "p" [("u", pinUserNoPin)] pinUserNoPin (by decide)).1 (by decide),
          (pin_gate_spec "u" "p" [("u", pinUserNoPin)] pinUserNoPin (by decide)).2.1
            (by decide) (by decide) (by decide),
          (pin_gate_spec "u" "1234" [("u", pinUserSet)] pinUserSet (by decide)).2.2
            (visibleDocuments pinUserSet.documents) (by decide)⟩

/-- Claim C3: the profile-picture replacement accepts its quota check if
and only if currentTotal plus (newSize minus oldSize) is at most
52,428,800 bytes, where oldSize is probeOldPicSize — the size of the
existing profile-picture object as probed from the object store, 0 if
none exists; consequently replacing a picture with one no larger never
trips the quota while the current total is within quota. -/
theorem profile_pic_quota_iff (newPath : String) (size : Nat) (flag : Bool) (w : World) :
    MAX_STORAGE_SIZE = 52428800
    ∧ ((updateProfilePicture newPath size flag w).1 = PPResult.ok ↔
        w.user.totalSize + ((size : ℤ) - (probeOldPicSize w : ℤ)) ≤ MAX_STORAGE_SIZE)
    ∧ ((size : ℤ) ≤ (probeOldPicSize w : ℤ) → w.user.totalSize ≤ MAX_STORAGE_SIZE →
        (updateProfilePicture newPath size flag w).1 = PPResult.ok) := by
  have hiff : (updateProfilePicture newPath size flag w).1 = PPResult.ok ↔
      w.user.totalSize + ((size : ℤ) - (probeOldPicSize w : ℤ)) ≤ MAX_STORAGE_SIZE := by
    unfold updateProfilePicture
    by_cases hq : w.user.totalSize - (probeOldPicSize w : ℤ) + (size : ℤ) > MAX_STORAGE_SIZE
    · rw [if_pos hq]
      constructor
      · intro h
        exact absurd h (by simp)
      · intro h
        exfalso
        linarith
    · rw [if_neg hq]
      exact ⟨fun _ => by linarith [not_lt.mp hq], fun _ => rfl⟩
  refine ⟨by decide, hiff, fun h1 h2 => hiff.mpr (by linarith)⟩

theorem profile_pic_quota_iff_witness :
    (updateProfilePicture "new/p" 1000000 true picWorld).1 = PPResult.ok := by
  exact (profile_pic_quota_iff "new/p" 1000000 true picWorld).2.2 (by decide) (by decide)

/-- Claim C4: a successful document deletion (record found and owned by
the caller) sets the user's totalSize to max(0, currentTotal minus the
fileSize recorded in the document record, 0 if that field is absent); the
result is never negative, even when the bookkeeping was already
inconsistent. -/
theorem delete_totalSize_floor (uid documentId : String) (w : World) (r : DocRecord)
    (hl : lookupDoc w.docs documentId = some r) (hr : r.userId = uid) :
    (deleteDocument uid documentId w).1 = DeleteOutcome.deleted
    ∧ (deleteDocument uid documentId w).2.user.totalSize
        = max 0 (w.user.totalSize - ((r.fileSize.getD 0 : Nat) : ℤ))
    ∧ 0 ≤ (deleteDocument uid documentId w).2.user.totalSize := by
  unfold deleteDocument
  rw [hl]
  dsimp only
  rw [if_neg (by simp [hr])]
  exact ⟨rfl, rfl, le_max_left 0 _⟩

theorem delete_totalSize_floor_witness :
    (deleteDocument "u1" "dX" inconsistentWorld).1 = DeleteOutcome.deleted
    ∧ (deleteDocument "u1" "dX" inconsistentWorld).2.user.totalSize = 0
    ∧ 0 ≤ (deleteDocument "u1" "dX" inconsistentWorld).2.user.totalSize := by
  have h := delete_totalSize_floor "u1" "dX" inconsistentWorld
    ⟨"u1", some 100, "u1/x"⟩ (by decide) rfl
  refine ⟨h.1, ?_, h.2.2⟩
  rw [h.2.1]
  decide

/-- Claim C9: in an accepted profile-picture replacement, the old stored
object is deleted only after the user record has been updated — in the
effect trace every deleteObject occurs at an index strictly after an
updateUserRecord; a failure of the old-object deletion never aborts the
operation (result and stored state are identical whether the deletion
succeeds or fails); and the user record ends up pointing at the new
object path, which is never a path the operation deletes. -/
theorem profile_pic_replace_ordering (newPath : String) (size : Nat) (flag : Bool) (w : World)
    (hok : (updateProfilePicture newPath size flag w).1 = PPResult.ok)
    (hpath : w.user.profilePicturePath ≠ some newPath) :
    ((updateProfilePicture newPath size false w).1 = PPResult.ok
      ∧ (updateProfilePicture newPath size false w).2.1
          = (updateProfilePicture newPath size true w).2.1)
    ∧ (∀ i p s, ((updateProfilePicture newPath size flag w).2.2).get? i
          = some (StorageEffect.deleteObject p s) →
        ∃ j pth t, j < i ∧ ((updateProfilePicture newPath size flag w).2.2).get? j
          = some (StorageEffect.updateUserRecord pth t))
    ∧ (updateProfilePicture newPath size flag w).2.1.user.profilePicturePath = some newPath
    ∧ (∀ p s, StorageEffect.deleteObject p s ∈ (updateProfilePicture newPath size flag w).2.2 →
        p ≠ newPath) := by
  by_cases hq : w.user.totalSize - (probeOldPicSize w : ℤ) + (size : ℤ) > MAX_STORAGE_SIZE
  · exfalso
    unfold updateProfilePicture at hok
    rw [if_pos hq] at hok
    exact absurd hok (by simp)
  · have htr : (updateProfilePicture newPath size flag w).2.2
        = [StorageEffect.putObject newPath size,
           StorageEffect.updateUserRecord newPath
             (w.user.totalSize - (probeOldPicSize w : ℤ) + (size : ℤ))]
          ++ (match w.user.profilePicturePath with
              | some oldPath =>
                  if 0 < probeOldPicSize w then [StorageEffect.deleteObject oldPath flag] else []
              | none => []) := by
      unfold updateProfilePicture
      rw [if_neg hq]
    refine ⟨⟨?_, ?_⟩, ?_, ?_, ?_⟩
    · unfold updateProfilePicture
      rw [if_neg hq]
    · unfold updateProfilePicture
      rw [if_neg hq, if_neg hq]
    · intro i p s hi
      rw [htr] at hi
      cases hpp : w.user.profilePicturePath with
      | none =>
          rw [hpp] at hi
          cases i with
          | zero => simp at hi
          | succ i1 =>
              cases i1 with
              | zero => simp at hi
              | succ i2 => simp at hi
      | some oldPath =>
          rw [hpp] at hi
          dsimp only at hi
          by_cases ho : 0 < probeOldPicSize w
          · rw [if_pos ho] at hi
            cases i with
            | zero => simp at hi
            | succ i1 =>
                cases i1 with
                | zero => simp at hi
                | succ i2 =>
                    refine ⟨1, newPath,
                      w.user.totalSize - (probeOldPicSize w : ℤ) + (size : ℤ),
                      by omega, ?_⟩
                    rw [htr, hpp]
                    dsimp only
                    rw [if_pos ho]
                    rfl
          · rw [if_neg ho] at hi
            cases i with
            | zero => simp at hi
            | succ i1 =>
                cases i1 with
                | zero => simp at hi
                | succ i2 => simp at hi
    · unfold updateProfilePicture
      rw [if_neg hq]
    · intro p s hmem
      rw [htr] at hmem
      cases hpp : w.user.profilePicturePath with
      | none =>
          rw [hpp] at hmem
          simp at hmem
      | some oldPath =>
          rw [hpp] at hmem
          dsimp only at hmem
          rw [hpp] at hpath
          by_cases ho : 0 < probeOldPicSize w
          · rw [if_pos ho] at hmem
            simp at hmem
            intro hcontra
            apply hpath
            rw [hmem.1] at hcontra
            rw [hcontra]
          · rw [if_neg ho] at hmem
            simp at hmem

theorem profile_pic_replace_ordering_witness :
    (updateProfilePicture "new/p" 3145728 false picWorld).1 = PPResult.ok
    ∧ (updateProfilePicture "new/p" 3145728 false picWorld).2.1
        = (updateProfilePicture "new/p" 3145728 true picWorld).2.1
    ∧ (updateProfilePicture "new/p" 3145728 true picWorld).2.1.user.profilePicturePath
        = some "new/p"
    ∧ "old/p" ≠ "new/p" := by
  have h := profile_pic_replace_ordering "new/p" 3145728 true picWorld (by decide) (by decide)
  exact ⟨h.1.1, h.1.2, h.2.2.1, h.2.2.2 "old/p" true (by decide)⟩

/-- Claim C2 counterexample: a user at totalSize 49,000,000 uploading a
4 MiB (4,194,304-byte) document exceeds the 52,428,800-byte quota, yet
the upload route accepts it: the handler returns the created outcome, the
user record's totalSize changes to 53,194,304, and a document record is
created — the rejection the claim describes does not happen on the
document-upload path. -/
theorem upload_over_quota_not_rejected_cex :
    (49000000 : ℤ) + 4194304 > MAX_STORAGE_SIZE
    ∧ (uploadDocument "u1" fourMiBUpload overQuotaWorld).1
        = UploadOutcome.created "d1" 4194304
    ∧ (uploadDocument "u1" fourMiBUpload overQuotaWorld).1 ≠ UploadOutcome.quotaRejected
    ∧ (uploadDocument "u1" fourMiBUpload overQuotaWorld).2.user.totalSize = 53194304
    ∧ (uploadDocument "u1" fourMiBUpload overQuotaWorld).2.user.totalSize
        ≠ overQuotaWorld.user.totalSize
    ∧ lookupDoc (uploadDocument "u1" fourMiBUpload overQuotaWorld).2.docs "d1"
        = some ⟨"u1", some 4194304, "u1/1_doc.pdf"⟩ := by
  exact ⟨by decide, by decide, by decide, by decide, by decide, by decide⟩

/-- Claim C2 as amended: the document-upload route performs no quota
check at all — every upload (the transport layer only caps single files
at 10 MiB) is accepted, creates the document record, appends the
descriptor via arrayUnion, and sets totalSize to currentTotal plus the
file size even when that exceeds 52,428,800 bytes; the 50 MiB cumulative
quota with the availableMB report is enforced only on the profile-picture
route, where the analogous request at totalSize 49,000,000 with a 4 MiB
file is rejected with availableMB 3.27. -/
theorem upload_never_quota_checked (uid : String) (a : UploadArgs) (w : World) :
    (uploadDocument uid a w).1 = UploadOutcome.created a.docId a.size
    ∧ (uploadDocument uid a w).2.user.totalSize = w.user.totalSize + (a.size : ℤ)
    ∧ lookupDoc (uploadDocument uid a w).2.docs a.docId = some ⟨uid, some a.size, a.storagePath⟩
    ∧ (uploadDocument uid a w).2.user.documents
        = arrayUnion w.user.documents
            (DocEntry.obj ⟨some a.docId, some a.docName, some a.docType,
              some a.size, some a.uploadedTime, some true⟩)
    ∧ (updateProfilePicture "p" 4194304 true overQuotaWorld).1
        = PPResult.quotaExceeded 49000000 52428800 4194304 3428800 327 := by
  refine ⟨rfl, rfl, ?_, rfl, by decide⟩
  simp [uploadDocument, lookupDoc]

end WalletDoc
